import Mathlib

/-!
# Devtron service layer: cluster configuration, ephemeral-container audit, chart path builder

A shallow embedding of three Go service methods:

* `HelmAppReadServiceImpl.GetClusterConf` (api/helm-app/service/read/HelmAppReadService.go)
* `EphemeralContainerServiceImpl.AuditEphemeralContainerAction`
  (pkg/cluster/EphemeralConatinersService.go)
* `DeploymentTemplateServiceImpl.BuildChartAndGetPath` and `autoHealChartLocationInChart`
  (pkg/deployment/manifest/deploymentTemplate/DeploymentTemplateService.go)

Collaborators (repositories, services, the file system) are parameters: records of
functions over an abstract store `σ`.  Every collaborator call and every log line of a
run is recorded, in order, in the run's event list.  A Go `error` is `Option GoError`
(`none` is `nil`).
-/

namespace Devtron

/-- A Go `error` value, identified by its message. -/
abbrev GoError := String

deriving instance DecidableEq for Except

/-- Log severities used by the services (`Errorw`, `Infow`). -/
inductive LogLevel where
  | Error
  | Info
  deriving DecidableEq, Repr

/-! ## HelmAppReadService -/

/-- Go `map[string]string`: indexing a missing key yields the empty string. -/
abbrev StringMap := List (String × String)

/-- Go map indexing `m[k]` on a `map[string]string`. -/
def StringMap.index (m : StringMap) (k : String) : String :=
  match m.lookup k with
  | some v => v
  | none => ""

/-- The cluster bean returned by `ClusterReadService.FindById` (fields read by
`GetClusterConf`). -/
structure ClusterBean where
  Id : Int
  ClusterName : String
  ServerUrl : String
  Config : StringMap
  InsecureSkipTLSVerify : Bool
  deriving DecidableEq, Repr

/-- `gRPC.ClusterConfig`; a Go struct literal leaves unset string fields empty. -/
structure ClusterConfig where
  ApiServerUrl : String := ""
  Token : String := ""
  ClusterId : Int := 0
  ClusterName : String := ""
  InsecureSkipTLSVerify : Bool := false
  KeyData : String := ""
  CertData : String := ""
  CaData : String := ""
  deriving DecidableEq, Repr

/-- The `commonBean` key constants of the credential mapping (declared in common-lib). -/
structure CommonBeanKeys where
  BearerToken : String
  TlsKey : String
  CertData : String
  CertificateAuthorityData : String
  deriving DecidableEq, Repr

/-- Go conversion `int32(x)`: wrap into the signed 32-bit range. -/
def toInt32 (x : Int) : Int :=
  (x + 2147483648) % 4294967296 - 2147483648

/-- `HelmAppReadServiceImpl.GetClusterConf`; `FindById` is the cluster-read collaborator. -/
def GetClusterConf (keys : CommonBeanKeys) (FindById : Int → Except GoError ClusterBean)
    (clusterId : Int) : Except GoError ClusterConfig :=
  match FindById clusterId with
  | .error err => .error err
  | .ok cluster =>
    let config : ClusterConfig :=
      { ApiServerUrl := cluster.ServerUrl
        Token := cluster.Config.index keys.BearerToken
        ClusterId := toInt32 cluster.Id
        ClusterName := cluster.ClusterName
        InsecureSkipTLSVerify := cluster.InsecureSkipTLSVerify }
    if cluster.InsecureSkipTLSVerify == false then
      .ok { config with
              KeyData := cluster.Config.index keys.TlsKey
              CertData := cluster.Config.index keys.CertData
              CaData := cluster.Config.index keys.CertificateAuthorityData }
    else
      .ok config

/-! ## EphemeralContainerService -/

/-- Modelled from the spec: `repository.ContainerAction`, the action-type enumeration
`{Create, Access, Terminate}` (its declaration is in the repository package). -/
inductive ContainerAction where
  | ActionCreate
  | ActionAccess
  | ActionTerminate
  deriving DecidableEq, Repr

/-- `repository.EphemeralContainerBean`: a row of the container table. -/
structure EphemeralContainerBean where
  Id : Int
  ClusterId : Int
  Namespace : String
  PodName : String
  Name : String
  IsExternallyCreated : Bool
  deriving DecidableEq, Repr

/-- `repository.EphemeralContainerAction`: a row of the audit table. -/
structure EphemeralContainerAction where
  Id : Int
  EphemeralContainerId : Int
  ActionType : ContainerAction
  PerformedAt : Nat
  PerformedBy : Int
  deriving DecidableEq, Repr

/-- `bean.EphemeralContainerBasicData` (the field read here). -/
structure EphemeralContainerBasicData where
  ContainerName : String
  deriving DecidableEq, Repr

/-- `bean.EphemeralContainerRequest` (the fields read here). -/
structure EphemeralContainerRequest where
  BasicData : EphemeralContainerBasicData
  Namespace : String
  ClusterId : Int
  PodName : String
  UserId : Int
  deriving DecidableEq, Repr

/-- A transaction handle (`*pg.Tx`). -/
abbrev Tx := Nat

/-- One observable step of a run of `AuditEphemeralContainerAction`: a repository call
with its arguments and its result, or a log line. -/
inductive AuditEvent where
  | FindContainerByName (clusterId : Int) (ns pod name : String)
      (res : Except GoError (Option EphemeralContainerBean))
  | StartTx (tx : Tx) (err : Option GoError)
  | RollbackTx (tx : Tx) (err : Option GoError)
  | SaveEphemeralContainerData (tx : Tx) (row : EphemeralContainerBean) (err : Option GoError)
  | SaveEphemeralContainerActionAudit (tx : Tx) (row : EphemeralContainerAction)
      (err : Option GoError)
  | CommitTx (tx : Tx) (err : Option GoError)
  | Log (level : LogLevel) (msg : String)
  deriving DecidableEq

/-- `repository.EphemeralContainersRepository` over a store `σ`.  The lookup reads the
store; every other call may change it.  The two saves take the row by pointer and may
write the generated id into it, so they return the row as well. -/
structure EphemeralContainersRepository (σ : Type) where
  FindContainerByName : Int → String → String → String → σ →
    Except GoError (Option EphemeralContainerBean)
  StartTx : σ → (Tx × Option GoError) × σ
  RollbackTx : Tx → σ → Option GoError × σ
  CommitTx : Tx → σ → Option GoError × σ
  SaveEphemeralContainerData : Tx → EphemeralContainerBean → σ →
    (Option GoError × EphemeralContainerBean) × σ
  SaveEphemeralContainerActionAudit : Tx → EphemeralContainerAction → σ →
    (Option GoError × EphemeralContainerAction) × σ

/-- What a run of `AuditEphemeralContainerAction` leaves behind: the returned error, the
store, and the events in order. -/
structure AuditOutcome (σ : Type) where
  ret : Option GoError
  db : σ
  events : List AuditEvent

/-- The deferred closure of `AuditEphemeralContainerAction`: it runs after the return
value `ret` is fixed, calls `RollbackTx`, and logs at info level when that fails.  The
assignment to the local `err` does not reach the (unnamed) result. -/
def deferredRollback {σ : Type} (repo : EphemeralContainersRepository σ) (tx : Tx)
    (ret : Option GoError) (s : σ) (events : List AuditEvent) : AuditOutcome σ :=
  let r := repo.RollbackTx tx s
  ⟨ret, r.2,
    events ++ .RollbackTx tx r.1 ::
      (if r.1.isSome then [.Log .Info "error in rolling back transaction"] else [])⟩

/-- Lines 86-102 of `AuditEphemeralContainerAction`: fill the audit row, insert it,
commit. -/
def saveAuditAndCommit {σ : Type} (repo : EphemeralContainersRepository σ) (now : Nat)
    (model : EphemeralContainerRequest) (actionType : ContainerAction) (tx : Tx)
    (containerId : Int) (s : σ) (events : List AuditEvent) : AuditOutcome σ :=
  let auditLogBean : EphemeralContainerAction :=
    { Id := 0
      EphemeralContainerId := containerId
      ActionType := actionType
      PerformedAt := now
      PerformedBy := model.UserId }
  match repo.SaveEphemeralContainerActionAudit tx auditLogBean s with
  | ((some err, _), s1) =>
    deferredRollback repo tx (some err) s1
      (events ++ [.SaveEphemeralContainerActionAudit tx auditLogBean (some err),
                  .Log .Error "Failed to save ephemeral container"])
  | ((none, _), s1) =>
    match repo.CommitTx tx s1 with
    | (some err, s2) =>
      deferredRollback repo tx (some err) s2
        (events ++ [.SaveEphemeralContainerActionAudit tx auditLogBean none,
                    .CommitTx tx (some err),
                    .Log .Error "error in committing transaction"])
    | (none, s2) =>
      deferredRollback repo tx none s2
        (events ++ [.SaveEphemeralContainerActionAudit tx auditLogBean none,
                    .CommitTx tx none,
                    .Log .Info "transaction committed successfully"])

/-- `EphemeralContainerServiceImpl.AuditEphemeralContainerAction`.  `GetContainerBean` is
the request's method of that name, `now` is the value of `time.Now()`. -/
def AuditEphemeralContainerAction {σ : Type} (repo : EphemeralContainersRepository σ)
    (GetContainerBean : EphemeralContainerRequest → EphemeralContainerBean) (now : Nat)
    (model : EphemeralContainerRequest) (actionType : ContainerAction) (s : σ) :
    AuditOutcome σ :=
  let find := repo.FindContainerByName model.ClusterId model.Namespace model.PodName
    model.BasicData.ContainerName s
  let findEv : AuditEvent := .FindContainerByName model.ClusterId model.Namespace
    model.PodName model.BasicData.ContainerName find
  match find with
  | .error err =>
    ⟨some err, s, [findEv, .Log .Error "error in finding ephemeral container in the database"]⟩
  | .ok container =>
    if container.isSome && actionType == .ActionCreate then
      ⟨some "container already present in the provided pod", s,
        [findEv, .Log .Error "Container already present in the provided pod"]⟩
    else
      match repo.StartTx s with
      | ((tx, some err), s1) =>
        deferredRollback repo tx (some err) s1
          [findEv, .StartTx tx (some err), .Log .Error "error in creating transaction"]
      | ((tx, none), s1) =>
        match container with
        | none =>
          let bean := GetContainerBean model
          let bean :=
            if actionType != .ActionCreate then { bean with IsExternallyCreated := true }
            else bean
          match repo.SaveEphemeralContainerData tx bean s1 with
          | ((some err, _), s2) =>
            deferredRollback repo tx (some err) s2
              [findEv, .StartTx tx none, .SaveEphemeralContainerData tx bean (some err),
               .Log .Error "Failed to save ephemeral container"]
          | ((none, saved), s2) =>
            saveAuditAndCommit repo now model actionType tx saved.Id s2
              [findEv, .StartTx tx none, .SaveEphemeralContainerData tx bean none]
        | some existing =>
          saveAuditAndCommit repo now model actionType tx existing.Id s1
            [findEv, .StartTx tx none]

/-- Events that write to the store or drive a transaction. -/
def AuditEvent.isWrite : AuditEvent → Bool
  | .StartTx _ _ => true
  | .RollbackTx _ _ => true
  | .SaveEphemeralContainerData _ _ _ => true
  | .SaveEphemeralContainerActionAudit _ _ _ => true
  | .CommitTx _ _ => true
  | _ => false

/-- Events that are a `SaveEphemeralContainerData` call. -/
def AuditEvent.isContainerInsert : AuditEvent → Bool
  | .SaveEphemeralContainerData _ _ _ => true
  | _ => false

/-- Events that are a `SaveEphemeralContainerActionAudit` call. -/
def AuditEvent.isAuditInsert : AuditEvent → Bool
  | .SaveEphemeralContainerActionAudit _ _ _ => true
  | _ => false

/-- Events that are a `CommitTx` call. -/
def AuditEvent.isCommit : AuditEvent → Bool
  | .CommitTx _ _ => true
  | _ => false

/-! ### An in-memory transactional store -/

/-- Modelled from the spec: the relational store behind the ephemeral-container
repository (the repository package is outside the excerpt).  It holds the container
table and the audit table; rows written inside a transaction are staged and become
visible only at commit, a rollback discards them, and a rollback with no open
transaction (after a commit) is an error that changes nothing.  `failStart`,
`failContainer`, `failAudit`, `failCommit` make the corresponding call fail. -/
structure MemDb where
  containers : List EphemeralContainerBean
  actions : List EphemeralContainerAction
  stagedContainers : List EphemeralContainerBean := []
  stagedActions : List EphemeralContainerAction := []
  txOpen : Bool := false
  nextId : Int := 1
  failStart : Bool := false
  failContainer : Bool := false
  failAudit : Bool := false
  failCommit : Bool := false
  deriving DecidableEq, Repr

/-- The rows visible outside a transaction: the two committed tables. -/
def MemDb.visible (db : MemDb) : List EphemeralContainerBean × List EphemeralContainerAction :=
  (db.containers, db.actions)

/-- Modelled from the spec: the repository operations over `MemDb`. -/
def memRepo : EphemeralContainersRepository MemDb where
  FindContainerByName := fun clusterId ns pod name db =>
    .ok (db.containers.find? (fun c =>
      c.ClusterId == clusterId && c.Namespace == ns && c.PodName == pod && c.Name == name))
  StartTx := fun db =>
    if db.failStart then ((0, some "cannot start transaction"), db)
    else ((1, none), { db with txOpen := true })
  RollbackTx := fun _ db =>
    if db.txOpen then
      (none, { db with txOpen := false, stagedContainers := [], stagedActions := [] })
    else (some "tx is closed", db)
  CommitTx := fun _ db =>
    if db.failCommit then (some "commit failed", db)
    else
      (none, { db with
                containers := db.containers ++ db.stagedContainers
                actions := db.actions ++ db.stagedActions
                stagedContainers := []
                stagedActions := []
                txOpen := false })
  SaveEphemeralContainerData := fun _ row db =>
    if db.failContainer then ((some "container insert failed", row), db)
    else
      let saved := { row with Id := db.nextId }
      ((none, saved),
        { db with stagedContainers := db.stagedContainers ++ [saved], nextId := db.nextId + 1 })
  SaveEphemeralContainerActionAudit := fun _ row db =>
    if db.failAudit then ((some "audit insert failed", row), db)
    else
      let saved := { row with Id := db.nextId }
      ((none, saved),
        { db with stagedActions := db.stagedActions ++ [saved], nextId := db.nextId + 1 })

/-- A `GetContainerBean` for the examples: the request's coordinates, not externally
created, id unset. -/
def sampleGetContainerBean (r : EphemeralContainerRequest) : EphemeralContainerBean :=
  { Id := 0
    ClusterId := r.ClusterId
    Namespace := r.Namespace
    PodName := r.PodName
    Name := r.BasicData.ContainerName
    IsExternallyCreated := false }

/-- A request for container `debug` of pod `web-0` in namespace `prod` of cluster 7. -/
def sampleRequest : EphemeralContainerRequest :=
  { BasicData := { ContainerName := "debug" }
    Namespace := "prod"
    ClusterId := 7
    PodName := "web-0"
    UserId := 42 }

/-- The row the sample request refers to, stored with id 5. -/
def sampleRow : EphemeralContainerBean :=
  { Id := 5
    ClusterId := 7
    Namespace := "prod"
    PodName := "web-0"
    Name := "debug"
    IsExternallyCreated := false }

/-- A store with no rows. -/
def emptyDb : MemDb := { containers := [], actions := [] }

/-- A store that already tracks the sample request's container. -/
def trackedDb : MemDb := { containers := [sampleRow], actions := [], nextId := 6 }

/-- An empty store in which the audit insert fails. -/
def failingAuditDb : MemDb := { containers := [], actions := [], failAudit := true }

/-- A store that tracks the sample container and in which the commit fails. -/
def failingCommitDb : MemDb :=
  { containers := [sampleRow], actions := [], nextId := 6, failCommit := true }

/-! ## Go standard library: `strings.HasSuffix`, `path.Clean`, `path.Join`

Go strings are byte strings; the functions below work on the characters of a Lean
`String`.  For UTF-8 text the two agree, because `/` and `.` are single bytes and every
suffix tested here starts with `/`. -/

/-- Go `strings.HasSuffix(s, suffix)`:
`len(s) >= len(suffix) && s[len(s)-len(suffix):] == suffix`. -/
def HasSuffix (s suffix : String) : Bool :=
  decide (s.data.length ≥ suffix.data.length) &&
    (s.data.drop (s.data.length - suffix.data.length) == suffix.data)

/-- The backtracking loop of `Clean` for a `..` element:
`for out.w > dotdot && !IsPathSeparator(out.index(out.w)) { out.w-- }`, on the write
index `w` of the buffer `buf`. -/
def cleanBacktrack (buf : List Char) (dotdot : Nat) : Nat → Nat
  | 0 => 0
  | w + 1 =>
    if w + 1 > dotdot ∧ buf.get? (w + 1) ≠ some '/' then cleanBacktrack buf dotdot w
    else w + 1

/-- The start of a real path element in `Clean`: add a slash if needed, then the first
byte of the element. -/
def cleanBeginElement (rooted : Bool) (out : List Char) (c : Char) : List Char :=
  if (rooted && out.length != 1) || (!rooted && out.length != 0) then out ++ ['/', c]
  else out ++ [c]

/-- A `..` element in `Clean`: remove the last element of the buffer when possible,
otherwise (not rooted) append `..`.  Returns the buffer and the new `dotdot`. -/
def cleanDotDot (rooted : Bool) (out : List Char) (dotdot : Nat) : List Char × Nat :=
  if out.length > dotdot then
    (out.take (cleanBacktrack out dotdot (out.length - 1)), dotdot)
  else if !rooted then
    let out1 := if out.length > 0 then out ++ ['/'] else out
    let out2 := out1 ++ ['.', '.']
    (out2, out2.length)
  else (out, dotdot)

/-- The main loop of Go `path.Clean` (and of `filepath.Clean` on Unix), one byte at a
time.  `inElem` is true while the inner loop copies a real path element; otherwise the
reader is at the start of an element and the cases are those of the Go `switch`:
separator, `.` element, `..` element, real element. -/
def cleanLoop (rooted : Bool) : List Char → Bool → List Char → Nat → List Char
  | [], _, out, _ => out
  | [c], inElem, out, _ =>
    if inElem then (if c = '/' then out else out ++ [c])
    else if c = '/' then out
    else if c = '.' then out
    else cleanBeginElement rooted out c
  | c :: c2 :: rest, inElem, out, dotdot =>
    if inElem then
      if c = '/' then cleanLoop rooted (c2 :: rest) false out dotdot
      else cleanLoop rooted (c2 :: rest) true (out ++ [c]) dotdot
    else if c = '/' then cleanLoop rooted (c2 :: rest) false out dotdot
    else if c = '.' ∧ c2 = '/' then cleanLoop rooted (c2 :: rest) false out dotdot
    else if c = '.' ∧ c2 = '.' ∧ (rest.head? = none ∨ rest.head? = some '/') then
      cleanLoop rooted rest false (cleanDotDot rooted out dotdot).1
        (cleanDotDot rooted out dotdot).2
    else cleanLoop rooted (c2 :: rest) true (cleanBeginElement rooted out c) dotdot

/-- Go `path.Clean`: the shortest path name equivalent to `path` by lexical processing.
The empty path becomes `"."`. -/
def Clean (path : String) : String :=
  if path.data = [] then "."
  else
    let rooted : Bool := path.data.head? == some '/'
    let out :=
      if rooted then cleanLoop true path.data.tail false ['/'] 1
      else cleanLoop false path.data false [] 0
    if out.length = 0 then "." else String.mk out

/-- Go `path.Join` (and `filepath.Join` on Unix): leading empty elements are ignored, the
rest is joined with `/` and the result is cleaned; all elements empty gives `""`. -/
def Join (elem : List String) : String :=
  match elem.dropWhile (fun e => e == "") with
  | [] => ""
  | es => Clean (String.mk (List.intercalate ['/'] (es.map String.data)))

/-- An ordinary path element: non-empty, without a slash, and neither `.` nor `..`. -/
def isPlainElement (e : List Char) : Prop :=
  e ≠ [] ∧ '/' ∉ e ∧ e ≠ ['.'] ∧ e ≠ ['.', '.']

instance (e : List Char) : Decidable (isPlainElement e) := by
  unfold isPlainElement
  infer_instance

/-- The elements joined with single slashes. -/
def joinElements : List (List Char) → List Char
  | [] => []
  | [e] => e
  | e :: e2 :: es => e ++ '/' :: joinElements (e2 :: es)

/-! ## DeploymentTemplateService -/

/-- `chartRepoRepository.Chart`: a chart row (the fields used here). -/
structure Chart where
  Id : Int
  AppId : Int
  ChartRefId : Int
  ChartLocation : String
  ChartVersion : String
  ReferenceTemplate : String
  deriving DecidableEq, Repr

/-- `bean.EnvConfigOverride`: the chart override; `Chart` is held by pointer, so writes
to it are seen by the caller. -/
structure EnvConfigOverride where
  Chart : Chart
  deriving DecidableEq, Repr

/-- Modelled from the spec: `bean.DeploymentConfig` is `{chartLocation, isLinkedRelease}`;
its declaration and the methods `IsLinkedRelease`, `GetChartLocation`, `SetChartLocation`
are in the deployment/common package. -/
structure DeploymentConfig where
  chartLocation : String
  isLinkedRelease : Bool
  deriving DecidableEq, Repr

/-- Modelled from the spec: `DeploymentConfig.IsLinkedRelease`. -/
def DeploymentConfig.IsLinkedRelease (c : DeploymentConfig) : Bool := c.isLinkedRelease

/-- Modelled from the spec: `DeploymentConfig.GetChartLocation`. -/
def DeploymentConfig.GetChartLocation (c : DeploymentConfig) : String := c.chartLocation

/-- Modelled from the spec: `DeploymentConfig.SetChartLocation`. -/
def DeploymentConfig.SetChartLocation (c : DeploymentConfig) (l : String) : DeploymentConfig :=
  { c with chartLocation := l }

/-- `bean.ChartRefDto`: `ChartData` is a byte slice that may be `nil`. -/
structure ChartRefDto where
  Location : String
  ChartData : Option (List Nat)
  deriving DecidableEq, Repr

/-- `util.ChartDataInfo` (the field read here). -/
structure ChartDataInfo where
  TemporaryFolder : String
  deriving DecidableEq, Repr

/-- Helm `chart.Metadata` (the fields set here). -/
structure ChartMetadata where
  Name : String
  Version : String
  deriving DecidableEq, Repr

/-- One observable step of a run of `BuildChartAndGetPath`: a tracing span being
started, a collaborator call with arguments and result, or a log line. -/
inductive ChartEvent where
  | Span (name : String)
  | ChartRepositoryFindById (id : Int) (res : Except GoError Chart)
  | ChartRefFindById (id : Int) (res : Except GoError ChartRefDto)
  | ChartRepositoryUpdate (chart : Chart) (err : Option GoError)
  | CreateOrUpdateConfig (config : DeploymentConfig) (userId : Int) (err : Option GoError)
  | Stat (path : String) (notExist : Bool)
  | ExtractChartIfMissing (data : List Nat) (refChartDir location : String)
      (info : Option ChartDataInfo) (err : Option GoError)
  | RemoveAll (path : String) (err : Option GoError)
  | BuildChart (metadata : ChartMetadata) (refPath dir : String) (err : Option GoError)
  | Log (level : LogLevel) (msg : String)
  deriving DecidableEq

/-- `chartRepoRepository.ChartRepository` (the methods called here). -/
structure ChartRepository (σ : Type) where
  FindById : Int → σ → Except GoError Chart
  Update : Chart → σ → Option GoError × σ

/-- `chartRef.ChartRefService` (the methods called here). -/
structure ChartRefService (σ : Type) where
  FindById : Int → σ → Except GoError ChartRefDto
  ExtractChartIfMissing : List Nat → String → String → σ →
    (Option ChartDataInfo × Option GoError) × σ

/-- `util.ChartTemplateService` (the method called here). -/
structure ChartTemplateService (σ : Type) where
  BuildChart : ChartMetadata → String → σ → (String × Option GoError) × σ

/-- `common.DeploymentConfigService` (the method called here, always with a `nil`
transaction). -/
structure DeploymentConfigService (σ : Type) where
  CreateOrUpdateConfig : DeploymentConfig → Int → σ →
    (Option DeploymentConfig × Option GoError) × σ

/-- `DeploymentTemplateServiceImpl` with what it reaches besides its fields: the file
system (`os.Stat` with `os.IsNotExist`, `os.RemoveAll`) and the constants
`bean4.RefChartDirPath` and `bean2.SystemUserId`. -/
structure DeploymentTemplateServiceImpl (σ : Type) where
  chartRefService : ChartRefService σ
  chartTemplateService : ChartTemplateService σ
  chartRepository : ChartRepository σ
  deploymentConfigService : DeploymentConfigService σ
  statNotExist : String → σ → Bool
  RemoveAll : String → σ → Option GoError × σ
  RefChartDirPath : String
  SystemUserId : Int

/-- What `autoHealChartLocationInChart` leaves behind: the returned error, the override
and the deployment config as the caller sees them through its pointers, the store, and
the events in order. -/
structure HealOutcome (σ : Type) where
  err : Option GoError
  envOverride : EnvConfigOverride
  envDeploymentConfig : DeploymentConfig
  store : σ
  events : List ChartEvent

/-- What `BuildChartAndGetPath` leaves behind. -/
structure BuildOutcome (σ : Type) where
  path : String
  err : Option GoError
  envOverride : EnvConfigOverride
  envDeploymentConfig : DeploymentConfig
  store : σ
  events : List ChartEvent

/-- `DeploymentTemplateServiceImpl.autoHealChartLocationInChart`. -/
def autoHealChartLocationInChart {σ : Type} (impl : DeploymentTemplateServiceImpl σ)
    (envOverride : EnvConfigOverride) (envDeploymentConfig : DeploymentConfig) (s : σ) :
    HealOutcome σ :=
  let chartId := envOverride.Chart.Id
  let ev0 : List ChartEvent :=
    [.Log .Info "auto-healing: Chart location in chart not correct. modifying ",
     .Span "chartRepository.FindById"]
  match impl.chartRepository.FindById chartId s with
  | .error err =>
    ⟨some err, envOverride, envDeploymentConfig, s,
      ev0 ++ [.ChartRepositoryFindById chartId (.error err),
              .Log .Error "error occurred while fetching chart from DB"]⟩
  | .ok chart =>
    let chartRefId := chart.ChartRefId
    let ev1 := ev0 ++ [.ChartRepositoryFindById chartId (.ok chart),
                       .Span "chartRefRepository.FindById"]
    match impl.chartRefService.FindById chartRefId s with
    | .error err =>
      ⟨some err, envOverride, envDeploymentConfig, s,
        ev1 ++ [.ChartRefFindById chartRefId (.error err),
                .Log .Error "error occurred while fetching chartRef from DB"]⟩
    | .ok chartRefDto =>
      let newChartLocation := Join [chartRefDto.Location, envOverride.Chart.ChartVersion]
      let chart := { chart with ChartLocation := newChartLocation }
      let ev2 := ev1 ++ [.ChartRefFindById chartRefId (.ok chartRefDto),
                         .Log .Info "new chart location build",
                         .Span "chartRepository.Update"]
      match impl.chartRepository.Update chart s with
      | (some err, s1) =>
        ⟨some err, envOverride, envDeploymentConfig, s1,
          ev2 ++ [.ChartRepositoryUpdate chart (some err),
                  .Log .Error "error occurred while saving chart into DB"]⟩
      | (none, s1) =>
        let envOverride : EnvConfigOverride :=
          { envOverride with
              Chart := { envOverride.Chart with ChartLocation := newChartLocation } }
        let envDeploymentConfig := envDeploymentConfig.SetChartLocation newChartLocation
        match impl.deploymentConfigService.CreateOrUpdateConfig envDeploymentConfig
            impl.SystemUserId s1 with
        | ((_, some err), s2) =>
          ⟨some err, envOverride, envDeploymentConfig, s2,
            ev2 ++ [.ChartRepositoryUpdate chart none,
                    .CreateOrUpdateConfig envDeploymentConfig impl.SystemUserId (some err),
                    .Log .Error "error occurred while creating or updating config"]⟩
        | ((_, none), s2) =>
          ⟨none, envOverride, envDeploymentConfig, s2,
            ev2 ++ [.ChartRepositoryUpdate chart none,
                    .CreateOrUpdateConfig envDeploymentConfig impl.SystemUserId none]⟩

/-- The condition of the `if` that opens `BuildChartAndGetPath` (lines 67-69). -/
def chartLocationNeedsHeal (envOverride : EnvConfigOverride)
    (envDeploymentConfig : DeploymentConfig) : Bool :=
  !envDeploymentConfig.IsLinkedRelease &&
    (!HasSuffix envOverride.Chart.ChartLocation ("/" ++ envOverride.Chart.ChartVersion) ||
      !HasSuffix envDeploymentConfig.GetChartLocation ("/" ++ envOverride.Chart.ChartVersion))

/-- Lines 100-106 of `BuildChartAndGetPath`: the call of `BuildChart` and the return. -/
def buildChartStep {σ : Type} (impl : DeploymentTemplateServiceImpl σ)
    (chartMetaData : ChartMetadata) (referenceTemplatePath : String)
    (envOverride : EnvConfigOverride) (envDeploymentConfig : DeploymentConfig) (s : σ)
    (events : List ChartEvent) : BuildOutcome σ :=
  match impl.chartTemplateService.BuildChart chartMetaData referenceTemplatePath s with
  | ((dir, some err), s1) =>
    ⟨"", some err, envOverride, envDeploymentConfig, s1,
      events ++ [.Span "chartTemplateService.BuildChart",
                 .BuildChart chartMetaData referenceTemplatePath dir (some err)]⟩
  | ((dir, none), s1) =>
    ⟨dir, none, envOverride, envDeploymentConfig, s1,
      events ++ [.Span "chartTemplateService.BuildChart",
                 .BuildChart chartMetaData referenceTemplatePath dir none]⟩

/-- Lines 77-107 of `BuildChartAndGetPath`: metadata, reference template path, loading
of a missing reference chart, build. -/
def loadAndBuild {σ : Type} (impl : DeploymentTemplateServiceImpl σ) (appName : String)
    (envOverride : EnvConfigOverride) (envDeploymentConfig : DeploymentConfig) (s : σ)
    (events : List ChartEvent) : BuildOutcome σ :=
  let chartMetaData : ChartMetadata :=
    { Name := appName, Version := envOverride.Chart.ChartVersion }
  let referenceTemplatePath :=
    Join [impl.RefChartDirPath, envOverride.Chart.ReferenceTemplate]
  if impl.statNotExist referenceTemplatePath s then
    let ev1 := events ++ [.Stat referenceTemplatePath true]
    match impl.chartRefService.FindById envOverride.Chart.ChartRefId s with
    | .error err =>
      ⟨"", some err, envOverride, envDeploymentConfig, s,
        ev1 ++ [.ChartRefFindById envOverride.Chart.ChartRefId (.error err),
                .Log .Error "error in fetching ChartRef data"]⟩
    | .ok chartRefValue =>
      let ev2 := ev1 ++ [.ChartRefFindById envOverride.Chart.ChartRefId (.ok chartRefValue)]
      match chartRefValue.ChartData with
      | some chartData =>
        match impl.chartRefService.ExtractChartIfMissing chartData impl.RefChartDirPath
            chartRefValue.Location s with
        | ((chartInfo, err), s1) =>
          let ev3 := ev2 ++ [.ExtractChartIfMissing chartData impl.RefChartDirPath
                               chartRefValue.Location chartInfo err]
          match chartInfo with
          | some info =>
            if info.TemporaryFolder != "" then
              match impl.RemoveAll info.TemporaryFolder s1 with
              | (some err1, s2) =>
                ⟨"", err, envOverride, envDeploymentConfig, s2,
                  ev3 ++ [.RemoveAll info.TemporaryFolder (some err1),
                          .Log .Error "error in deleting temp dir "]⟩
              | (none, s2) =>
                ⟨"", err, envOverride, envDeploymentConfig, s2,
                  ev3 ++ [.RemoveAll info.TemporaryFolder none]⟩
            else ⟨"", err, envOverride, envDeploymentConfig, s1, ev3⟩
          | none => ⟨"", err, envOverride, envDeploymentConfig, s1, ev3⟩
      | none =>
        buildChartStep impl chartMetaData referenceTemplatePath envOverride
          envDeploymentConfig s ev2
  else
    buildChartStep impl chartMetaData referenceTemplatePath envOverride envDeploymentConfig s
      (events ++ [.Stat referenceTemplatePath false])

/-- `DeploymentTemplateServiceImpl.BuildChartAndGetPath`. -/
def BuildChartAndGetPath {σ : Type} (impl : DeploymentTemplateServiceImpl σ)
    (appName : String) (envOverride : EnvConfigOverride)
    (envDeploymentConfig : DeploymentConfig) (s : σ) : BuildOutcome σ :=
  if chartLocationNeedsHeal envOverride envDeploymentConfig then
    let healed := autoHealChartLocationInChart impl envOverride envDeploymentConfig s
    match healed.err with
    | some err =>
      ⟨"", some err, healed.envOverride, healed.envDeploymentConfig, healed.store,
        .Span "autoHealChartLocationInChart" :: healed.events⟩
    | none =>
      loadAndBuild impl appName healed.envOverride healed.envDeploymentConfig healed.store
        (.Span "autoHealChartLocationInChart" :: healed.events)
  else
    loadAndBuild impl appName envOverride envDeploymentConfig s []

/-- Auto-heal ran in a run of `BuildChartAndGetPath`: its span was started. -/
def BuildOutcome.autoHealRan {σ : Type} (out : BuildOutcome σ) : Bool :=
  out.events.contains (.Span "autoHealChartLocationInChart")

/-! ### An in-memory chart store -/

/-- Modelled from the spec: the state behind the chart repository, the chart-ref
service, the deployment-config service and the file system (all outside the excerpt):
chart rows, chart-ref records by id, the persisted deployment config, the directories
on disk.  `failConfig` and `failExtract` make the corresponding call fail. -/
structure ChartStore where
  charts : List Chart
  chartRefs : List (Int × ChartRefDto)
  savedConfig : Option DeploymentConfig := none
  dirs : List String := []
  failConfig : Bool := false
  failExtract : Bool := false
  deriving DecidableEq, Repr

/-- Modelled from the spec: the collaborators of the chart path builder over
`ChartStore`.  `Update` replaces the row with the same id at once (no transaction),
`ExtractChartIfMissing` creates the reference directory and reports a temporary folder,
`BuildChart` returns a directory named after the chart metadata. -/
def memImpl : DeploymentTemplateServiceImpl ChartStore where
  chartRefService :=
    { FindById := fun id st =>
        match st.chartRefs.lookup id with
        | some r => .ok r
        | none => .error "chart ref not found"
      ExtractChartIfMissing := fun _ dir location st =>
        if st.failExtract then
          ((some { TemporaryFolder := "/tmp/chart-extract" }, some "extraction failed"), st)
        else
          ((some { TemporaryFolder := "/tmp/chart-extract" }, none),
            { st with dirs := Join [dir, location] :: st.dirs }) }
  chartTemplateService :=
    { BuildChart := fun md _ st => (("/tmp/" ++ md.Name ++ "-" ++ md.Version, none), st) }
  chartRepository :=
    { FindById := fun id st =>
        match st.charts.find? (fun c => c.Id == id) with
        | some c => .ok c
        | none => .error "chart not found"
      Update := fun chart st =>
        (none, { st with charts := st.charts.map (fun c => if c.Id == chart.Id then chart else c) }) }
  deploymentConfigService :=
    { CreateOrUpdateConfig := fun config _ st =>
        if st.failConfig then ((none, some "config update failed"), st)
        else ((some config, none), { st with savedConfig := some config }) }
  statNotExist := fun path st => !st.dirs.contains path
  RemoveAll := fun path st => (none, { st with dirs := st.dirs.filter (fun d => d != path) })
  RefChartDirPath := "scripts/devtron-reference-helm-charts"
  SystemUserId := 1

/-- A chart row of app 3 whose stored location has drifted from its version. -/
def driftedChart : Chart :=
  { Id := 11
    AppId := 3
    ChartRefId := 20
    ChartLocation := "charts/foo/old"
    ChartVersion := "1.0.0"
    ReferenceTemplate := "charts/foo" }

/-- The same chart row with the location matching the version. -/
def healthyChart : Chart := { driftedChart with ChartLocation := "charts/foo/1.0.0" }

/-- A store holding `chart`, chart-ref 20 at `refLocation` with optional archived data,
and the given directories on disk. -/
def chartStoreWith (chart : Chart) (refLocation : String) (chartData : Option (List Nat))
    (dirs : List String) : ChartStore :=
  { charts := [chart]
    chartRefs := [(20, { Location := refLocation, ChartData := chartData })]
    dirs := dirs }

/-- Events that are a call of `BuildChart`. -/
def ChartEvent.isBuildChart : ChartEvent → Bool
  | .BuildChart _ _ _ _ => true
  | _ => false

/-- Events that are a call which may change the store: `Update`,
`CreateOrUpdateConfig`, `ExtractChartIfMissing`, `RemoveAll`, `BuildChart`. -/
def ChartEvent.isWrite : ChartEvent → Bool
  | .ChartRepositoryUpdate _ _ => true
  | .CreateOrUpdateConfig _ _ _ => true
  | .ExtractChartIfMissing _ _ _ _ _ => true
  | .RemoveAll _ _ => true
  | .BuildChart _ _ _ _ => true
  | _ => false

/-- The deployment config of the drifted chart: not a linked release, old location. -/
def driftedConfig : DeploymentConfig := { chartLocation := "charts/foo/old", isLinkedRelease := false }

/-- The deployment config of the healthy chart. -/
def healthyConfig : DeploymentConfig :=
  { chartLocation := "charts/foo/1.0.0", isLinkedRelease := false }

/-- A store holding the drifted chart in which persisting the deployment config fails. -/
def failingConfigStore : ChartStore :=
  { charts := [driftedChart]
    chartRefs := [(20, { Location := "charts/foo", ChartData := none })]
    failConfig := true }

/-- A store holding the healthy chart whose chart-ref carries archived chart data and
whose reference template directory is not on disk. -/
def archivedChartStore : ChartStore := chartStoreWith healthyChart "charts/foo" (some [31, 139]) []

/-- The credential-mapping keys used in the examples. -/
def sampleKeys : CommonBeanKeys :=
  { BearerToken := "bearer_token"
    TlsKey := "tls_key"
    CertData := "cert_data"
    CertificateAuthorityData := "cert_auth_data" }

/-- A cluster with stored TLS material and TLS verification skipped. -/
def sampleInsecureCluster : ClusterBean :=
  { Id := 7
    ClusterName := "edge"
    ServerUrl := "https://10.0.0.1:6443"
    Config := [("bearer_token", "tok"), ("tls_key", "KEY"), ("cert_data", "CERT"),
               ("cert_auth_data", "CA")]
    InsecureSkipTLSVerify := true }

/-! ## Theorems: HelmAppReadService -/

/-- C1: for every cluster that `FindById` returns, `GetClusterConf` returns a config
whose `KeyData`, `CertData` and `CaData` are all empty when the cluster's
`InsecureSkipTLSVerify` is true, whatever the credential mapping holds, and are the
mapping's values at the TLS-key, cert-data and certificate-authority-data keys when it
is false. -/
theorem GetClusterConf_tls_fields (keys : CommonBeanKeys)
    (FindById : Int → Except GoError ClusterBean) (clusterId : Int) (cluster : ClusterBean)
    (hfind : FindById clusterId = .ok cluster) :
    ∃ config, GetClusterConf keys FindById clusterId = .ok config ∧
      (cluster.InsecureSkipTLSVerify = true →
        config.KeyData = "" ∧ config.CertData = "" ∧ config.CaData = "") ∧
      (cluster.InsecureSkipTLSVerify = false →
        config.KeyData = cluster.Config.index keys.TlsKey ∧
        config.CertData = cluster.Config.index keys.CertData ∧
        config.CaData = cluster.Config.index keys.CertificateAuthorityData) := by
  unfold GetClusterConf
  rw [hfind]
  cases hskip : cluster.InsecureSkipTLSVerify <;> simp [hskip]

/-- C1 at a cluster that stores TLS material and skips verification: the stored values
do not reach the config. -/
theorem GetClusterConf_tls_fields_witness :
    ∃ config, GetClusterConf sampleKeys (fun _ => .ok sampleInsecureCluster) 7 = .ok config ∧
      (sampleInsecureCluster.InsecureSkipTLSVerify = true →
        config.KeyData = "" ∧ config.CertData = "" ∧ config.CaData = "") ∧
      (sampleInsecureCluster.InsecureSkipTLSVerify = false →
        config.KeyData = sampleInsecureCluster.Config.index sampleKeys.TlsKey ∧
        config.CertData = sampleInsecureCluster.Config.index sampleKeys.CertData ∧
        config.CaData =
          sampleInsecureCluster.Config.index sampleKeys.CertificateAuthorityData) :=
  GetClusterConf_tls_fields sampleKeys (fun _ => .ok sampleInsecureCluster) 7
    sampleInsecureCluster rfl

/-! ## Theorems: EphemeralContainerService -/

section Audit

variable {σ : Type} (repo : EphemeralContainersRepository σ)

/-- C2: when the lookup finds an existing container row, a Create audit returns the
error "container already present in the provided pod" and writes nothing: the only
events are the lookup and a log line (no `StartTx`, no `SaveEphemeralContainerData`, no
`SaveEphemeralContainerActionAudit`), and the store is the one the call started from. -/
theorem audit_create_existing_rejected
    (GetContainerBean : EphemeralContainerRequest → EphemeralContainerBean) (now : Nat)
    (model : EphemeralContainerRequest) (s : σ) (existing : EphemeralContainerBean)
    (hfind : repo.FindContainerByName model.ClusterId model.Namespace model.PodName
      model.BasicData.ContainerName s = .ok (some existing)) :
    (AuditEphemeralContainerAction repo GetContainerBean now model .ActionCreate s).ret =
        some "container already present in the provided pod" ∧
      (AuditEphemeralContainerAction repo GetContainerBean now model .ActionCreate s).db = s ∧
      (AuditEphemeralContainerAction repo GetContainerBean now model .ActionCreate s).events =
        [.FindContainerByName model.ClusterId model.Namespace model.PodName
            model.BasicData.ContainerName (.ok (some existing)),
         .Log .Error "Container already present in the provided pod"] ∧
      (AuditEphemeralContainerAction repo GetContainerBean now model
        .ActionCreate s).events.filter AuditEvent.isWrite = [] := by
  simp [AuditEphemeralContainerAction, hfind, AuditEvent.isWrite]

/-- C3: when the lookup finds no row, the action is Access or Terminate, and the
transaction start, both inserts and the commit succeed, the run returns nil and makes
exactly one container insert, of the request's bean with `IsExternallyCreated = true`,
and exactly one audit insert, whose `EphemeralContainerId` is the id the container
insert generated, whose `ActionType` is the given action and whose `PerformedBy` is the
request's user id; both are committed. -/
theorem audit_untracked_access_or_terminate
    (GetContainerBean : EphemeralContainerRequest → EphemeralContainerBean) (now : Nat)
    (model : EphemeralContainerRequest) (actionType : ContainerAction) (s s1 s2 s3 s4 : σ)
    (tx : Tx) (saved : EphemeralContainerBean) (savedAudit : EphemeralContainerAction)
    (hfind : repo.FindContainerByName model.ClusterId model.Namespace model.PodName
      model.BasicData.ContainerName s = .ok none)
    (hact : actionType = .ActionAccess ∨ actionType = .ActionTerminate)
    (hstart : repo.StartTx s = ((tx, none), s1))
    (hsave : repo.SaveEphemeralContainerData tx
      { GetContainerBean model with IsExternallyCreated := true } s1 = ((none, saved), s2))
    (haudit : repo.SaveEphemeralContainerActionAudit tx
      { Id := 0, EphemeralContainerId := saved.Id, ActionType := actionType,
        PerformedAt := now, PerformedBy := model.UserId } s2 = ((none, savedAudit), s3))
    (hcommit : repo.CommitTx tx s3 = (none, s4)) :
    (AuditEphemeralContainerAction repo GetContainerBean now model actionType s).ret = none ∧
      (AuditEphemeralContainerAction repo GetContainerBean now model
        actionType s).events.filter AuditEvent.isContainerInsert =
        [.SaveEphemeralContainerData tx
          { GetContainerBean model with IsExternallyCreated := true } none] ∧
      (AuditEphemeralContainerAction repo GetContainerBean now model
        actionType s).events.filter AuditEvent.isAuditInsert =
        [.SaveEphemeralContainerActionAudit tx
          { Id := 0, EphemeralContainerId := saved.Id, ActionType := actionType,
            PerformedAt := now, PerformedBy := model.UserId } none] ∧
      (AuditEphemeralContainerAction repo GetContainerBean now model
        actionType s).events.filter AuditEvent.isCommit = [.CommitTx tx none] ∧
      (AuditEphemeralContainerAction repo GetContainerBean now model actionType s).db =
        (repo.RollbackTx tx s4).2 := by
  have hne : (actionType != ContainerAction.ActionCreate) = true := by
    rcases hact with h | h <;> subst h <;> decide
  have hne2 : (actionType == ContainerAction.ActionCreate) = false := by
    rcases hact with h | h <;> subst h <;> decide
  simp only [AuditEphemeralContainerAction, hfind, hstart, hne, hne2, if_true, hsave,
    saveAuditAndCommit, haudit, hcommit, Option.isSome_none, Bool.false_and]
  simp [deferredRollback, AuditEvent.isContainerInsert, AuditEvent.isAuditInsert,
    AuditEvent.isCommit, List.filter_cons]

/-- C4 as amended: when the lookup finds an existing row, a Create audit is rejected
without any insert; for Access or Terminate, when the transaction start, the audit
insert and the commit succeed, the run returns nil, makes no container insert and
exactly one audit insert, whose `EphemeralContainerId` is the existing row's id, and
commits it. -/
theorem audit_tracked_container
    (GetContainerBean : EphemeralContainerRequest → EphemeralContainerBean) (now : Nat)
    (model : EphemeralContainerRequest) (actionType : ContainerAction) (s s1 s2 s3 : σ)
    (tx : Tx) (existing : EphemeralContainerBean) (savedAudit : EphemeralContainerAction)
    (hfind : repo.FindContainerByName model.ClusterId model.Namespace model.PodName
      model.BasicData.ContainerName s = .ok (some existing))
    (hstart : repo.StartTx s = ((tx, none), s1))
    (haudit : repo.SaveEphemeralContainerActionAudit tx
      { Id := 0, EphemeralContainerId := existing.Id, ActionType := actionType,
        PerformedAt := now, PerformedBy := model.UserId } s1 = ((none, savedAudit), s2))
    (hcommit : repo.CommitTx tx s2 = (none, s3)) :
    (actionType = .ActionCreate →
      (AuditEphemeralContainerAction repo GetContainerBean now model actionType s).ret =
          some "container already present in the provided pod" ∧
        (AuditEphemeralContainerAction repo GetContainerBean now model
          actionType s).events.filter AuditEvent.isWrite = []) ∧
    (actionType = .ActionAccess ∨ actionType = .ActionTerminate →
      (AuditEphemeralContainerAction repo GetContainerBean now model actionType s).ret = none ∧
        (AuditEphemeralContainerAction repo GetContainerBean now model
          actionType s).events.filter AuditEvent.isContainerInsert = [] ∧
        (AuditEphemeralContainerAction repo GetContainerBean now model
          actionType s).events.filter AuditEvent.isAuditInsert =
          [.SaveEphemeralContainerActionAudit tx
            { Id := 0, EphemeralContainerId := existing.Id, ActionType := actionType,
              PerformedAt := now, PerformedBy := model.UserId } none] ∧
        (AuditEphemeralContainerAction repo GetContainerBean now model
          actionType s).events.filter AuditEvent.isCommit = [.CommitTx tx none] ∧
        (AuditEphemeralContainerAction repo GetContainerBean now model actionType s).db =
          (repo.RollbackTx tx s3).2) := by
  constructor
  · intro h
    subst h
    simp [AuditEphemeralContainerAction, hfind, AuditEvent.isWrite]
  · intro hact
    have hne2 : (actionType == ContainerAction.ActionCreate) = false := by
      rcases hact with h | h <;> subst h <;> decide
    simp only [AuditEphemeralContainerAction, hfind, hstart, hne2, saveAuditAndCommit, haudit,
      hcommit, Option.isSome_some, Bool.and_false, Bool.true_and]
    simp [deferredRollback, AuditEvent.isContainerInsert, AuditEvent.isAuditInsert,
      AuditEvent.isCommit, List.filter_cons]

/-- C5: in every run in which `SaveEphemeralContainerActionAudit` fails, the call returns
that error, `CommitTx` is never called and `RollbackTx` is called on the transaction.
For every store in which transaction start, the two inserts and rollback leave the
visible rows as they are (only a commit publishes), the visible rows after the call are
those before it: a container row inserted earlier in the call is not visible. -/
theorem audit_insert_failure_rolls_back {V : Type} (visible : σ → V)
    (GetContainerBean : EphemeralContainerRequest → EphemeralContainerBean) (now : Nat)
    (model : EphemeralContainerRequest) (actionType : ContainerAction) (s : σ)
    (tx : Tx) (row : EphemeralContainerAction) (e : GoError)
    (hStart : ∀ s, visible (repo.StartTx s).2 = visible s)
    (hSaveC : ∀ tx b s, visible (repo.SaveEphemeralContainerData tx b s).2 = visible s)
    (hSaveA : ∀ tx a s, visible (repo.SaveEphemeralContainerActionAudit tx a s).2 = visible s)
    (hRollback : ∀ tx s, visible (repo.RollbackTx tx s).2 = visible s)
    (hfail : AuditEvent.SaveEphemeralContainerActionAudit tx row (some e) ∈
      (AuditEphemeralContainerAction repo GetContainerBean now model actionType s).events) :
    (AuditEphemeralContainerAction repo GetContainerBean now model actionType s).ret = some e ∧
      (AuditEphemeralContainerAction repo GetContainerBean now model
        actionType s).events.filter AuditEvent.isCommit = [] ∧
      (∃ r, AuditEvent.RollbackTx tx r ∈
        (AuditEphemeralContainerAction repo GetContainerBean now model actionType s).events) ∧
      visible (AuditEphemeralContainerAction repo GetContainerBean now model actionType s).db =
        visible s := by
  revert hfail
  unfold AuditEphemeralContainerAction
  rcases hfind : repo.FindContainerByName model.ClusterId model.Namespace model.PodName
    model.BasicData.ContainerName s with err | container
  · simp
  · simp only
    split
    · simp
    · rcases hstart : repo.StartTx s with ⟨⟨tx0, err0⟩, s1⟩
      have v1 := congrArg (fun p => visible p.2) hstart
      simp only [hStart] at v1
      cases err0 with
      | some err => simp [deferredRollback]
      | none =>
        cases container with
        | none =>
          simp only
          rcases hsave : repo.SaveEphemeralContainerData tx0 _ s1 with ⟨⟨errc, saved⟩, s2⟩
          have v2 := congrArg (fun p => visible p.2) hsave
          simp only [hSaveC] at v2
          cases errc with
          | some err => simp [deferredRollback]
          | none =>
            simp only [saveAuditAndCommit]
            rcases haudit : repo.SaveEphemeralContainerActionAudit tx0 _ s2 with
              ⟨⟨erra, sa⟩, s3⟩
            have v3 := congrArg (fun p => visible p.2) haudit
            simp only [hSaveA] at v3
            cases erra with
            | some err =>
              simp only [deferredRollback]
              intro hfail
              simp at hfail
              obtain ⟨htx, -, he⟩ := hfail
              subst htx he
              refine ⟨rfl, ?_, ⟨(repo.RollbackTx tx s3).1, by simp⟩, ?_⟩
              · simp [AuditEvent.isCommit, List.filter_cons]
              · simp only [hRollback, ← v3, ← v2, ← v1]
            | none =>
              rcases hcommit : repo.CommitTx tx0 s3 with ⟨errm, s4⟩
              cases errm <;> simp [deferredRollback, hcommit]
        | some existing =>
          simp only [saveAuditAndCommit]
          rcases haudit : repo.SaveEphemeralContainerActionAudit tx0 _ s1 with
            ⟨⟨erra, sa⟩, s3⟩
          have v3 := congrArg (fun p => visible p.2) haudit
          simp only [hSaveA] at v3
          cases erra with
          | some err =>
            simp only [deferredRollback]
            intro hfail
            simp at hfail
            obtain ⟨htx, -, he⟩ := hfail
            subst htx he
            refine ⟨rfl, ?_, ⟨(repo.RollbackTx tx s3).1, by simp⟩, ?_⟩
            · simp [AuditEvent.isCommit, List.filter_cons]
            · simp only [hRollback, ← v3, ← v1]
          | none =>
            rcases hcommit : repo.CommitTx tx0 s3 with ⟨errm, s4⟩
            cases errm <;> simp [deferredRollback, hcommit]

theorem saveAuditAndCommit_ret_rollback (rollback : Tx → σ → Option GoError × σ) (now : Nat)
    (model : EphemeralContainerRequest) (actionType : ContainerAction) (tx : Tx)
    (containerId : Int) (s : σ) (events : List AuditEvent) :
    (saveAuditAndCommit { repo with RollbackTx := rollback } now model actionType tx
        containerId s events).ret =
      (saveAuditAndCommit repo now model actionType tx containerId s events).ret := by
  simp only [saveAuditAndCommit]
  rcases haudit : repo.SaveEphemeralContainerActionAudit tx _ s with ⟨⟨erra, sa⟩, s3⟩
  cases erra with
  | some err => rfl
  | none =>
    simp only
    rcases hcommit : repo.CommitTx tx s3 with ⟨errm, s4⟩
    cases errm <;> rfl

/-- C9: the value `AuditEphemeralContainerAction` returns does not depend on
`RollbackTx`: replacing the repository's `RollbackTx` by any other function leaves the
returned value the same; a run whose `CommitTx` succeeded returns nil, and a run whose
`CommitTx` failed returns that error. -/
theorem audit_return_ignores_rollback
    (GetContainerBean : EphemeralContainerRequest → EphemeralContainerBean) (now : Nat)
    (model : EphemeralContainerRequest) (actionType : ContainerAction) (s : σ) :
    (∀ rollback : Tx → σ → Option GoError × σ,
      (AuditEphemeralContainerAction { repo with RollbackTx := rollback } GetContainerBean now
          model actionType s).ret =
        (AuditEphemeralContainerAction repo GetContainerBean now model actionType s).ret) ∧
    (∀ tx, AuditEvent.CommitTx tx none ∈
        (AuditEphemeralContainerAction repo GetContainerBean now model actionType s).events →
      (AuditEphemeralContainerAction repo GetContainerBean now model actionType s).ret = none) ∧
    (∀ tx e, AuditEvent.CommitTx tx (some e) ∈
        (AuditEphemeralContainerAction repo GetContainerBean now model actionType s).events →
      (AuditEphemeralContainerAction repo GetContainerBean now model actionType s).ret =
        some e) := by
  refine ⟨?_, ?_, ?_⟩
  · intro rollback
    unfold AuditEphemeralContainerAction
    rcases hfind : repo.FindContainerByName model.ClusterId model.Namespace model.PodName
      model.BasicData.ContainerName s with err | container
    · rfl
    · simp only
      split
      · rfl
      · rcases hstart : repo.StartTx s with ⟨⟨tx0, err0⟩, s1⟩
        cases err0 with
        | some err => rfl
        | none =>
          cases container with
          | none =>
            simp only
            rcases hsave : repo.SaveEphemeralContainerData tx0 _ s1 with ⟨⟨errc, saved⟩, s2⟩
            cases errc with
            | some err => rfl
            | none => exact saveAuditAndCommit_ret_rollback repo rollback _ _ _ _ _ _ _
          | some existing => exact saveAuditAndCommit_ret_rollback repo rollback _ _ _ _ _ _ _
  all_goals
    unfold AuditEphemeralContainerAction
    rcases hfind : repo.FindContainerByName model.ClusterId model.Namespace model.PodName
      model.BasicData.ContainerName s with err | container
    · simp
    · simp only
      split
      · simp
      · rcases hstart : repo.StartTx s with ⟨⟨tx0, err0⟩, s1⟩
        cases err0 with
        | some err => simp [deferredRollback]
        | none =>
          cases container with
          | none =>
            simp only
            rcases hsave : repo.SaveEphemeralContainerData tx0 _ s1 with ⟨⟨errc, saved⟩, s2⟩
            cases errc with
            | some err => simp [deferredRollback]
            | none =>
              simp only [saveAuditAndCommit]
              rcases haudit : repo.SaveEphemeralContainerActionAudit tx0 _ s2 with
                ⟨⟨erra, sa⟩, s3⟩
              cases erra with
              | some err => simp [deferredRollback]
              | none =>
                rcases hcommit : repo.CommitTx tx0 s3 with ⟨errm, s4⟩
                cases errm <;> simp [deferredRollback, hcommit]
          | some existing =>
            simp only [saveAuditAndCommit]
            rcases haudit : repo.SaveEphemeralContainerActionAudit tx0 _ s1 with
              ⟨⟨erra, sa⟩, s3⟩
            cases erra with
            | some err => simp [deferredRollback]
            | none =>
              rcases hcommit : repo.CommitTx tx0 s3 with ⟨errm, s4⟩
              cases errm <;> simp [deferredRollback, hcommit]

end Audit

/-- C2 on the in-memory store that already tracks the sample container: the Create
audit is rejected and the store, staged rows included, is unchanged. -/
theorem audit_create_existing_rejected_witness :
    (AuditEphemeralContainerAction memRepo sampleGetContainerBean 100 sampleRequest
        .ActionCreate trackedDb).ret = some "container already present in the provided pod" ∧
      (AuditEphemeralContainerAction memRepo sampleGetContainerBean 100 sampleRequest
        .ActionCreate trackedDb).db = trackedDb ∧
      (AuditEphemeralContainerAction memRepo sampleGetContainerBean 100 sampleRequest
        .ActionCreate trackedDb).events =
        [.FindContainerByName sampleRequest.ClusterId sampleRequest.Namespace
            sampleRequest.PodName sampleRequest.BasicData.ContainerName (.ok (some sampleRow)),
         .Log .Error "Container already present in the provided pod"] ∧
      (AuditEphemeralContainerAction memRepo sampleGetContainerBean 100 sampleRequest
        .ActionCreate trackedDb).events.filter AuditEvent.isWrite = [] :=
  audit_create_existing_rejected memRepo sampleGetContainerBean 100 sampleRequest trackedDb
    sampleRow (by decide)

/-- C3 on the empty in-memory store with an Access audit: one container row with
`IsExternallyCreated = true` gets id 1 and one audit row refers to id 1. -/
theorem audit_untracked_access_or_terminate_witness :
    (AuditEphemeralContainerAction memRepo sampleGetContainerBean 100 sampleRequest
        .ActionAccess emptyDb).ret = none ∧
      (AuditEphemeralContainerAction memRepo sampleGetContainerBean 100 sampleRequest
        .ActionAccess emptyDb).events.filter AuditEvent.isContainerInsert =
        [.SaveEphemeralContainerData 1
          { sampleGetContainerBean sampleRequest with IsExternallyCreated := true } none] ∧
      (AuditEphemeralContainerAction memRepo sampleGetContainerBean 100 sampleRequest
        .ActionAccess emptyDb).events.filter AuditEvent.isAuditInsert =
        [.SaveEphemeralContainerActionAudit 1
          { Id := 0, EphemeralContainerId := 1, ActionType := .ActionAccess,
            PerformedAt := 100, PerformedBy := sampleRequest.UserId } none] ∧
      (AuditEphemeralContainerAction memRepo sampleGetContainerBean 100 sampleRequest
        .ActionAccess emptyDb).events.filter AuditEvent.isCommit = [.CommitTx 1 none] ∧
      (AuditEphemeralContainerAction memRepo sampleGetContainerBean 100 sampleRequest
        .ActionAccess emptyDb).db =
        { containers := [{ sampleRow with Id := 1, IsExternallyCreated := true }]
          actions := [{ Id := 2, EphemeralContainerId := 1, ActionType := .ActionAccess,
                        PerformedAt := 100, PerformedBy := 42 }]
          nextId := 3 } :=
  audit_untracked_access_or_terminate memRepo sampleGetContainerBean 100 sampleRequest
    .ActionAccess emptyDb
    { emptyDb with txOpen := true }
    { emptyDb with
        txOpen := true
        stagedContainers := [{ sampleRow with Id := 1, IsExternallyCreated := true }]
        nextId := 2 }
    { emptyDb with
        txOpen := true
        stagedContainers := [{ sampleRow with Id := 1, IsExternallyCreated := true }]
        stagedActions := [{ Id := 2, EphemeralContainerId := 1, ActionType := .ActionAccess,
                            PerformedAt := 100, PerformedBy := 42 }]
        nextId := 3 }
    { containers := [{ sampleRow with Id := 1, IsExternallyCreated := true }]
      actions := [{ Id := 2, EphemeralContainerId := 1, ActionType := .ActionAccess,
                    PerformedAt := 100, PerformedBy := 42 }]
      nextId := 3 }
    1
    { sampleRow with Id := 1, IsExternallyCreated := true }
    { Id := 2, EphemeralContainerId := 1, ActionType := .ActionAccess, PerformedAt := 100,
      PerformedBy := 42 }
    (by decide) (Or.inl rfl) (by decide) (by decide) (by decide) (by decide)

/-- C4 fails for Create: the lookup finds the tracked row, and the Create audit makes
no audit insert at all (it returns the duplicate error), where the claim promises
exactly one new audit row. -/
theorem audit_tracked_create_inserts_nothing :
    memRepo.FindContainerByName sampleRequest.ClusterId sampleRequest.Namespace
        sampleRequest.PodName sampleRequest.BasicData.ContainerName trackedDb =
        .ok (some sampleRow) ∧
      ((AuditEphemeralContainerAction memRepo sampleGetContainerBean 100 sampleRequest
        .ActionCreate trackedDb).events.filter AuditEvent.isAuditInsert).length = 0 ∧
      (AuditEphemeralContainerAction memRepo sampleGetContainerBean 100 sampleRequest
        .ActionCreate trackedDb).db.actions = [] ∧
      (AuditEphemeralContainerAction memRepo sampleGetContainerBean 100 sampleRequest
        .ActionCreate trackedDb).ret = some "container already present in the provided pod" := by
  decide

/-- C4 as amended, on the in-memory store that tracks the sample container (id 5), with
a Terminate audit: no container insert, one committed audit row referring to id 5. -/
theorem audit_tracked_container_witness :
    (AuditEphemeralContainerAction memRepo sampleGetContainerBean 100 sampleRequest
        .ActionTerminate trackedDb).ret = none ∧
      (AuditEphemeralContainerAction memRepo sampleGetContainerBean 100 sampleRequest
        .ActionTerminate trackedDb).events.filter AuditEvent.isContainerInsert = [] ∧
      (AuditEphemeralContainerAction memRepo sampleGetContainerBean 100 sampleRequest
        .ActionTerminate trackedDb).events.filter AuditEvent.isAuditInsert =
        [.SaveEphemeralContainerActionAudit 1
          { Id := 0, EphemeralContainerId := 5, ActionType := .ActionTerminate,
            PerformedAt := 100, PerformedBy := sampleRequest.UserId } none] ∧
      (AuditEphemeralContainerAction memRepo sampleGetContainerBean 100 sampleRequest
        .ActionTerminate trackedDb).events.filter AuditEvent.isCommit = [.CommitTx 1 none] ∧
      (AuditEphemeralContainerAction memRepo sampleGetContainerBean 100 sampleRequest
        .ActionTerminate trackedDb).db =
        { containers := [sampleRow]
          actions := [{ Id := 6, EphemeralContainerId := 5, ActionType := .ActionTerminate,
                        PerformedAt := 100, PerformedBy := 42 }]
          nextId := 7 } :=
  (audit_tracked_container memRepo sampleGetContainerBean 100 sampleRequest
    .ActionTerminate trackedDb
    { trackedDb with txOpen := true }
    { trackedDb with
        txOpen := true
        stagedActions := [{ Id := 6, EphemeralContainerId := 5, ActionType := .ActionTerminate,
                            PerformedAt := 100, PerformedBy := 42 }]
        nextId := 7 }
    { containers := [sampleRow]
      actions := [{ Id := 6, EphemeralContainerId := 5, ActionType := .ActionTerminate,
                    PerformedAt := 100, PerformedBy := 42 }]
      nextId := 7 }
    1 sampleRow
    { Id := 6, EphemeralContainerId := 5, ActionType := .ActionTerminate, PerformedAt := 100,
      PerformedBy := 42 }
    (by decide) (by decide) (by decide) (by decide)).2 (Or.inr rfl)

theorem memRepo_StartTx_visible (db : MemDb) : (memRepo.StartTx db).2.visible = db.visible := by
  simp only [memRepo]
  split <;> rfl

theorem memRepo_SaveEphemeralContainerData_visible (tx : Tx) (row : EphemeralContainerBean)
    (db : MemDb) : (memRepo.SaveEphemeralContainerData tx row db).2.visible = db.visible := by
  simp only [memRepo]
  split <;> rfl

theorem memRepo_SaveEphemeralContainerActionAudit_visible (tx : Tx)
    (row : EphemeralContainerAction) (db : MemDb) :
    (memRepo.SaveEphemeralContainerActionAudit tx row db).2.visible = db.visible := by
  simp only [memRepo]
  split <;> rfl

theorem memRepo_RollbackTx_visible (tx : Tx) (db : MemDb) :
    (memRepo.RollbackTx tx db).2.visible = db.visible := by
  simp only [memRepo]
  split <;> rfl

/-- C5 on an empty in-memory store whose audit insert fails, with an Access audit: the
container row staged by the call is rolled back and both tables stay empty. -/
theorem audit_insert_failure_rolls_back_witness :
    (AuditEphemeralContainerAction memRepo sampleGetContainerBean 100 sampleRequest
        .ActionAccess failingAuditDb).ret = some "audit insert failed" ∧
      (AuditEphemeralContainerAction memRepo sampleGetContainerBean 100 sampleRequest
        .ActionAccess failingAuditDb).events.filter AuditEvent.isCommit = [] ∧
      (∃ r, AuditEvent.RollbackTx 1 r ∈
        (AuditEphemeralContainerAction memRepo sampleGetContainerBean 100 sampleRequest
          .ActionAccess failingAuditDb).events) ∧
      (AuditEphemeralContainerAction memRepo sampleGetContainerBean 100 sampleRequest
        .ActionAccess failingAuditDb).db.visible = failingAuditDb.visible :=
  audit_insert_failure_rolls_back memRepo MemDb.visible sampleGetContainerBean 100
    sampleRequest .ActionAccess failingAuditDb 1
    { Id := 0, EphemeralContainerId := 1, ActionType := .ActionAccess, PerformedAt := 100,
      PerformedBy := 42 }
    "audit insert failed"
    memRepo_StartTx_visible memRepo_SaveEphemeralContainerData_visible
    memRepo_SaveEphemeralContainerActionAudit_visible memRepo_RollbackTx_visible (by decide)

/-- C9 on the in-memory store: after a successful commit the deferred rollback fails
("tx is closed") and the call still returns nil; when the commit fails the deferred
rollback succeeds and the call returns the commit error. -/
theorem audit_return_ignores_rollback_witness :
    AuditEvent.RollbackTx 1 (some "tx is closed") ∈
        (AuditEphemeralContainerAction memRepo sampleGetContainerBean 100 sampleRequest
          .ActionAccess emptyDb).events ∧
      (AuditEphemeralContainerAction memRepo sampleGetContainerBean 100 sampleRequest
        .ActionAccess emptyDb).ret = none ∧
      AuditEvent.RollbackTx 1 none ∈
        (AuditEphemeralContainerAction memRepo sampleGetContainerBean 100 sampleRequest
          .ActionAccess failingCommitDb).events ∧
      (AuditEphemeralContainerAction memRepo sampleGetContainerBean 100 sampleRequest
        .ActionAccess failingCommitDb).ret = some "commit failed" :=
  ⟨by decide,
    (audit_return_ignores_rollback memRepo sampleGetContainerBean 100 sampleRequest
      .ActionAccess emptyDb).2.1 1 (by decide),
    by decide,
    (audit_return_ignores_rollback memRepo sampleGetContainerBean 100 sampleRequest
      .ActionAccess failingCommitDb).2.2 1 "commit failed" (by decide)⟩

/-! ## Theorems: DeploymentTemplateService -/

section Chart

variable {σ : Type} (impl : DeploymentTemplateServiceImpl σ)

theorem buildChartStep_span (md : ChartMetadata) (refPath : String)
    (envOverride : EnvConfigOverride) (envDeploymentConfig : DeploymentConfig) (s : σ)
    (events : List ChartEvent) :
    ChartEvent.Span "autoHealChartLocationInChart" ∈
        (buildChartStep impl md refPath envOverride envDeploymentConfig s events).events ↔
      ChartEvent.Span "autoHealChartLocationInChart" ∈ events := by
  unfold buildChartStep
  split <;> simp

theorem loadAndBuild_span (appName : String) (envOverride : EnvConfigOverride)
    (envDeploymentConfig : DeploymentConfig) (s : σ) (events : List ChartEvent) :
    ChartEvent.Span "autoHealChartLocationInChart" ∈
        (loadAndBuild impl appName envOverride envDeploymentConfig s events).events ↔
      ChartEvent.Span "autoHealChartLocationInChart" ∈ events := by
  unfold loadAndBuild
  simp only
  repeat' split
  all_goals first
    | (rw [buildChartStep_span]; simp)
    | simp

theorem BuildChartAndGetPath_autoHealRan (appName : String) (envOverride : EnvConfigOverride)
    (envDeploymentConfig : DeploymentConfig) (s : σ) :
    (BuildChartAndGetPath impl appName envOverride envDeploymentConfig s).autoHealRan =
      chartLocationNeedsHeal envOverride envDeploymentConfig := by
  unfold BuildChartAndGetPath BuildOutcome.autoHealRan
  cases h : chartLocationNeedsHeal envOverride envDeploymentConfig
  · simp [loadAndBuild_span]
  · simp only [if_true]
    split
    · simp
    · simp [loadAndBuild_span]

/-- C6 as amended: `BuildChartAndGetPath` runs auto-heal if and only if the deployment
config is not a linked release and at least one of the override's chart location and the
deployment config's chart location does not end with "/" followed by the override's
chart version; with override location "charts/foo/1.0.0" and version "1.0.0" no
auto-heal occurs exactly when the deployment config is a linked release or its chart
location ends with "/1.0.0" as well. -/
theorem BuildChartAndGetPath_autoHeal_iff (appName : String) (envOverride : EnvConfigOverride)
    (envDeploymentConfig : DeploymentConfig) (s : σ) (chart : Chart) :
    ((BuildChartAndGetPath impl appName envOverride envDeploymentConfig s).autoHealRan = true ↔
      envDeploymentConfig.IsLinkedRelease = false ∧
        (HasSuffix envOverride.Chart.ChartLocation ("/" ++ envOverride.Chart.ChartVersion) =
            false ∨
          HasSuffix envDeploymentConfig.GetChartLocation
            ("/" ++ envOverride.Chart.ChartVersion) = false)) ∧
    ((BuildChartAndGetPath impl appName
        ⟨{ chart with ChartLocation := "charts/foo/1.0.0", ChartVersion := "1.0.0" }⟩
        envDeploymentConfig s).autoHealRan = false ↔
      envDeploymentConfig.IsLinkedRelease = true ∨
        HasSuffix envDeploymentConfig.GetChartLocation "/1.0.0" = true) := by
  rw [BuildChartAndGetPath_autoHealRan, BuildChartAndGetPath_autoHealRan]
  unfold chartLocationNeedsHeal
  have h : HasSuffix "charts/foo/1.0.0" "/1.0.0" = true := by decide
  have h2 : ("/" : String) ++ "1.0.0" = "/1.0.0" := by decide
  constructor
  · simp
  · simp only [h2, h]
    cases envDeploymentConfig.IsLinkedRelease <;>
      cases HasSuffix envDeploymentConfig.GetChartLocation "/1.0.0" <;> simp

theorem Join_two_of_first_nonempty (a b : String) (ha : a ≠ "") :
    Join [a, b] = Clean (a ++ "/" ++ b) := by
  have h : (a == "") = false := by simpa using ha
  have hcat : a ++ "/" ++ b = String.mk (a.data ++ '/' :: b.data) := by
    apply String.ext
    simp
  rw [hcat]
  simp [Join, List.dropWhile, h, List.intercalate, List.intersperse]

theorem cleanLoop_inElem_step (rooted : Bool) (c : Char) (l out : List Char) (dotdot : Nat) :
    cleanLoop rooted (c :: l) true out dotdot =
      if c = '/' then cleanLoop rooted l false out dotdot
      else cleanLoop rooted l true (out ++ [c]) dotdot := by
  cases l with
  | nil => by_cases h : c = '/' <;> simp [cleanLoop, h]
  | cons c2 rest => simp [cleanLoop]

theorem cleanLoop_copy (rooted : Bool) (w tail out : List Char) (dotdot : Nat)
    (hw : '/' ∉ w) :
    cleanLoop rooted (w ++ tail) true out dotdot = cleanLoop rooted tail true (out ++ w) dotdot := by
  induction w generalizing out with
  | nil => simp
  | cons c w ih =>
    have hc : c ≠ '/' := fun h => hw (by simp [h])
    have hw2 : '/' ∉ w := fun h => hw (by simp [h])
    rw [List.cons_append, cleanLoop_inElem_step, if_neg hc, ih _ hw2]
    simp

theorem cleanLoop_begin (rooted : Bool) (c : Char) (w tail out : List Char) (dotdot : Nat)
    (hplain : isPlainElement (c :: w))
    (htail : tail = [] ∨ ∃ t, tail = '/' :: t) :
    cleanLoop rooted (c :: w ++ tail) false out dotdot =
      cleanLoop rooted (w ++ tail) true (cleanBeginElement rooted out c) dotdot := by
  obtain ⟨-, hslash, hdot, hdotdot⟩ := hplain
  have hc : c ≠ '/' := fun h => hslash (by simp [h])
  have hw : '/' ∉ w := fun h => hslash (by simp [h])
  cases w with
  | nil =>
    have hcd : c ≠ '.' := fun h => hdot (by simp [h])
    rcases htail with rfl | ⟨t, rfl⟩
    · simp [cleanLoop, hc, hcd]
    · simp [cleanLoop, hc, hcd]
  | cons c2 w2 =>
    have hc2 : c2 ≠ '/' := fun h => hw (by simp [h])
    have hw2 : '/' ∉ w2 := fun h => hw (by simp [h])
    have hnd : ¬ (c = '.' ∧ c2 = '.' ∧
        ((w2 ++ tail).head? = none ∨ (w2 ++ tail).head? = some '/')) := by
      rintro ⟨h1, h2, h3⟩
      cases w2 with
      | nil => exact hdotdot (by simp [h1, h2])
      | cons c3 w3 =>
        have hc3 : c3 ≠ '/' := fun h => hw2 (by simp [h])
        simp [hc3] at h3
    simp only [List.cons_append, cleanLoop, hc, hc2, if_false, and_false, Bool.false_eq_true]
    exact if_neg hnd

theorem cleanLoop_plain_elements (es : List (List Char)) (hne : es ≠ [])
    (hplain : ∀ e ∈ es, isPlainElement e) (out : List Char) (dotdot : Nat) :
    cleanLoop false (joinElements es) false out dotdot =
      if out = [] then joinElements es else out ++ '/' :: joinElements es := by
  induction es generalizing out with
  | nil => exact absurd rfl hne
  | cons e es ih =>
    have he : isPlainElement e := hplain e (by simp)
    obtain ⟨c, w, rfl⟩ : ∃ c w, e = c :: w := by
      cases e with
      | nil => exact absurd rfl he.1
      | cons c w => exact ⟨c, w, rfl⟩
    have hw : '/' ∉ w := fun h => he.2.1 (by simp [h])
    have hbegin : cleanBeginElement false out c =
        if out = [] then [c] else out ++ ['/', c] := by
      cases out <;> simp [cleanBeginElement]
    cases es with
    | nil =>
      have h1 := cleanLoop_begin false c w [] out dotdot he (Or.inl rfl)
      have h2 := cleanLoop_copy false w [] (cleanBeginElement false out c) dotdot hw
      simp only [List.append_nil] at h1 h2
      simp only [joinElements]
      rw [h1, h2]
      simp only [cleanLoop, hbegin]
      split <;> simp
    | cons e2 es2 =>
      have hrest : ∀ e ∈ e2 :: es2, isPlainElement e := fun e h =>
        hplain e (List.mem_cons_of_mem _ h)
      have h1 := cleanLoop_begin false c w ('/' :: joinElements (e2 :: es2)) out dotdot he
        (Or.inr ⟨_, rfl⟩)
      have h2 := cleanLoop_copy false w ('/' :: joinElements (e2 :: es2))
        (cleanBeginElement false out c) dotdot hw
      have h3 := cleanLoop_inElem_step false '/' (joinElements (e2 :: es2))
        (cleanBeginElement false out c ++ w) dotdot
      have h4 := ih (by simp) hrest (cleanBeginElement false out c ++ w)
      have hcons : cleanBeginElement false out c ++ w ≠ [] := by
        rw [hbegin]
        split <;> simp
      simp only [List.cons_append] at h1
      simp only [joinElements, List.cons_append]
      rw [h1, h2, h3, if_pos rfl, h4, if_neg hcons, hbegin]
      split <;> simp

theorem Clean_plain_elements (es : List (List Char)) (hne : es ≠ [])
    (hplain : ∀ e ∈ es, isPlainElement e) :
    Clean (String.mk (joinElements es)) = String.mk (joinElements es) := by
  obtain ⟨e, es2, rfl⟩ : ∃ e es2, es = e :: es2 := by
    cases es with
    | nil => exact absurd rfl hne
    | cons e es2 => exact ⟨e, es2, rfl⟩
  have he : isPlainElement e := hplain e (by simp)
  obtain ⟨c, w, rfl⟩ : ∃ c w, e = c :: w := by
    cases e with
    | nil => exact absurd rfl he.1
    | cons c w => exact ⟨c, w, rfl⟩
  have hc : c ≠ '/' := fun h => he.2.1 (by simp [h])
  obtain ⟨t, ht⟩ : ∃ t, joinElements ((c :: w) :: es2) = c :: t := by
    cases es2 <;> simp [joinElements]
  have hloop := cleanLoop_plain_elements ((c :: w) :: es2) hne hplain [] 0
  simp only [if_true] at hloop
  rw [ht] at hloop
  unfold Clean
  simp [ht, hloop, hc]

theorem joinElements_append_singleton (es : List (List Char)) (hne : es ≠ [])
    (v : List Char) : joinElements (es ++ [v]) = joinElements es ++ '/' :: v := by
  induction es with
  | nil => exact absurd rfl hne
  | cons e es ih =>
    cases es with
    | nil => simp [joinElements]
    | cons e2 es2 =>
      have := ih (by simp)
      simp only [List.cons_append] at this
      simp [joinElements, this]

theorem HasSuffix_append (a b : String) : HasSuffix (a ++ b) b = true := by
  simp [HasSuffix]

/-- For a chart-ref location made of ordinary path elements and an ordinary version
name, `Join` is plain concatenation with a slash, and the result ends with the slash
and the version. -/
theorem Join_plain (es : List (List Char)) (v : String) (hne : es ≠ [])
    (hplain : ∀ e ∈ es, isPlainElement e) (hv : isPlainElement v.data) :
    Join [String.mk (joinElements es), v] = String.mk (joinElements es) ++ "/" ++ v ∧
      HasSuffix (Join [String.mk (joinElements es), v]) ("/" ++ v) = true := by
  have hcat : String.mk (joinElements es) ++ "/" ++ v =
      String.mk (joinElements (es ++ [v.data])) := by
    apply String.ext
    simp [joinElements_append_singleton es hne]
  have hnonempty : String.mk (joinElements es) ≠ "" := by
    intro h
    have h2 := congrArg String.data h
    simp only at h2
    cases es with
    | nil => exact hne rfl
    | cons e es2 =>
      have he := (hplain e (by simp)).1
      cases es2 <;> cases e <;> simp_all [joinElements]
  have hclean : Clean (String.mk (joinElements (es ++ [v.data]))) =
      String.mk (joinElements (es ++ [v.data])) := by
    apply Clean_plain_elements
    · simp
    · intro e he
      rcases List.mem_append.1 he with h | h
      · exact hplain e h
      · simp at h
        subst h
        exact hv
  have hjoin : Join [String.mk (joinElements es), v] =
      String.mk (joinElements es) ++ "/" ++ v := by
    rw [Join_two_of_first_nonempty _ _ hnonempty, hcat, hclean]
  refine ⟨hjoin, ?_⟩
  rw [hjoin, String.append_assoc]
  exact HasSuffix_append _ _

/-- C7 as amended: a successful auto-heal recomputes the location as
`filepath.Join(refLocation, chartVersion)`, the cleaned join; it passes that same string
to `Update` on the chart row, writes it into the in-memory override and into the
deployment config, and passes that config to `CreateOrUpdateConfig`.  The joined location
is exactly refLocation followed by "/" and the version whenever refLocation is non-empty
and that string is already clean, and the consistency check of `BuildChartAndGetPath`
holds afterwards whenever the joined location ends with "/" followed by the version;
both are the case when refLocation is a relative path of ordinary names and the version
is an ordinary name. -/
theorem autoHeal_success (envOverride : EnvConfigOverride)
    (envDeploymentConfig : DeploymentConfig) (s s1 s2 : σ) (chart : Chart)
    (chartRefDto : ChartRefDto) (saved : Option DeploymentConfig)
    (hchart : impl.chartRepository.FindById envOverride.Chart.Id s = .ok chart)
    (href : impl.chartRefService.FindById chart.ChartRefId s = .ok chartRefDto)
    (hupd : impl.chartRepository.Update
      { chart with
          ChartLocation := Join [chartRefDto.Location, envOverride.Chart.ChartVersion] } s =
      (none, s1))
    (hcfg : impl.deploymentConfigService.CreateOrUpdateConfig
      (envDeploymentConfig.SetChartLocation
        (Join [chartRefDto.Location, envOverride.Chart.ChartVersion]))
      impl.SystemUserId s1 = ((saved, none), s2)) :
    (autoHealChartLocationInChart impl envOverride envDeploymentConfig s).err = none ∧
      (autoHealChartLocationInChart impl envOverride envDeploymentConfig s).store = s2 ∧
      (autoHealChartLocationInChart impl envOverride envDeploymentConfig s).events.filter
          ChartEvent.isWrite =
        [.ChartRepositoryUpdate
            { chart with
                ChartLocation := Join [chartRefDto.Location, envOverride.Chart.ChartVersion] }
            none,
         .CreateOrUpdateConfig
            (envDeploymentConfig.SetChartLocation
              (Join [chartRefDto.Location, envOverride.Chart.ChartVersion]))
            impl.SystemUserId none] ∧
      (autoHealChartLocationInChart impl envOverride envDeploymentConfig
          s).envOverride.Chart.ChartLocation =
        Join [chartRefDto.Location, envOverride.Chart.ChartVersion] ∧
      (autoHealChartLocationInChart impl envOverride envDeploymentConfig
          s).envDeploymentConfig.GetChartLocation =
        Join [chartRefDto.Location, envOverride.Chart.ChartVersion] ∧
      (chartRefDto.Location ≠ "" →
        Clean (chartRefDto.Location ++ "/" ++ envOverride.Chart.ChartVersion) =
          chartRefDto.Location ++ "/" ++ envOverride.Chart.ChartVersion →
        Join [chartRefDto.Location, envOverride.Chart.ChartVersion] =
          chartRefDto.Location ++ "/" ++ envOverride.Chart.ChartVersion) ∧
      (HasSuffix (Join [chartRefDto.Location, envOverride.Chart.ChartVersion])
          ("/" ++ envOverride.Chart.ChartVersion) = true →
        chartLocationNeedsHeal
          (autoHealChartLocationInChart impl envOverride envDeploymentConfig s).envOverride
          (autoHealChartLocationInChart impl envOverride envDeploymentConfig
            s).envDeploymentConfig = false) ∧
      (∀ es : List (List Char), es ≠ [] → (∀ e ∈ es, isPlainElement e) →
        isPlainElement envOverride.Chart.ChartVersion.data →
        chartRefDto.Location = String.mk (joinElements es) →
        (autoHealChartLocationInChart impl envOverride envDeploymentConfig
            s).envOverride.Chart.ChartLocation =
          chartRefDto.Location ++ "/" ++ envOverride.Chart.ChartVersion ∧
        chartLocationNeedsHeal
          (autoHealChartLocationInChart impl envOverride envDeploymentConfig s).envOverride
          (autoHealChartLocationInChart impl envOverride envDeploymentConfig
            s).envDeploymentConfig = false) := by
  simp only [autoHealChartLocationInChart, hchart, href, hupd, hcfg]
  refine ⟨?_, ?_, ?_, ?_, ?_, ?_, ?_, ?_⟩
  · trivial
  · trivial
  · simp [ChartEvent.isWrite, List.filter_cons]
  · trivial
  · trivial
  · intro hne hclean
    rw [Join_two_of_first_nonempty _ _ hne, hclean]
  · intro hsuf
    simp [chartLocationNeedsHeal, DeploymentConfig.SetChartLocation,
      DeploymentConfig.GetChartLocation, hsuf]
  · intro es hne hplain hv hloc
    have hj := Join_plain es envOverride.Chart.ChartVersion hne hplain hv
    rw [← hloc] at hj
    refine ⟨hj.1, ?_⟩
    simp [chartLocationNeedsHeal, DeploymentConfig.SetChartLocation,
      DeploymentConfig.GetChartLocation, hj.2]

/-- C10 as amended: auto-heal is not transactional.  When `Update` of the chart row
succeeds and `CreateOrUpdateConfig` then fails, `autoHealChartLocationInChart` returns
that error; the only store-changing calls are that `Update` and the failed
`CreateOrUpdateConfig` (no call undoes the update), the store is what those two left,
and the in-memory override and deployment config keep the new location. -/
theorem autoHeal_config_failure (envOverride : EnvConfigOverride)
    (envDeploymentConfig : DeploymentConfig) (s s1 s2 : σ) (chart : Chart)
    (chartRefDto : ChartRefDto) (saved : Option DeploymentConfig) (e : GoError)
    (hchart : impl.chartRepository.FindById envOverride.Chart.Id s = .ok chart)
    (href : impl.chartRefService.FindById chart.ChartRefId s = .ok chartRefDto)
    (hupd : impl.chartRepository.Update
      { chart with
          ChartLocation := Join [chartRefDto.Location, envOverride.Chart.ChartVersion] } s =
      (none, s1))
    (hcfg : impl.deploymentConfigService.CreateOrUpdateConfig
      (envDeploymentConfig.SetChartLocation
        (Join [chartRefDto.Location, envOverride.Chart.ChartVersion]))
      impl.SystemUserId s1 = ((saved, some e), s2)) :
    (autoHealChartLocationInChart impl envOverride envDeploymentConfig s).err = some e ∧
      (autoHealChartLocationInChart impl envOverride envDeploymentConfig s).store = s2 ∧
      (autoHealChartLocationInChart impl envOverride envDeploymentConfig s).events.filter
          ChartEvent.isWrite =
        [.ChartRepositoryUpdate
            { chart with
                ChartLocation := Join [chartRefDto.Location, envOverride.Chart.ChartVersion] }
            none,
         .CreateOrUpdateConfig
            (envDeploymentConfig.SetChartLocation
              (Join [chartRefDto.Location, envOverride.Chart.ChartVersion]))
            impl.SystemUserId (some e)] ∧
      (autoHealChartLocationInChart impl envOverride envDeploymentConfig
          s).envOverride.Chart.ChartLocation =
        Join [chartRefDto.Location, envOverride.Chart.ChartVersion] ∧
      (autoHealChartLocationInChart impl envOverride envDeploymentConfig
          s).envDeploymentConfig =
        envDeploymentConfig.SetChartLocation
          (Join [chartRefDto.Location, envOverride.Chart.ChartVersion]) := by
  simp only [autoHealChartLocationInChart, hchart, href, hupd, hcfg]
  refine ⟨?_, ?_, ?_, ?_, ?_⟩
  · trivial
  · trivial
  · simp [ChartEvent.isWrite, List.filter_cons]
  · trivial
  · trivial

/-- In every run of lines 77-107 in which the reference template directory is missing
and the chart-ref record carries archived chart data, the function returns right after
`ExtractChartIfMissing`: the path is empty, the error is the extraction's error (nil on
success) and `BuildChart` is not called. -/
theorem loadAndBuild_archived_returns_early (appName : String)
    (envOverride : EnvConfigOverride) (envDeploymentConfig : DeploymentConfig) (s : σ)
    (events : List ChartEvent) (chartRefValue : ChartRefDto) (chartData : List Nat)
    (hstat : impl.statNotExist
      (Join [impl.RefChartDirPath, envOverride.Chart.ReferenceTemplate]) s = true)
    (href : impl.chartRefService.FindById envOverride.Chart.ChartRefId s = .ok chartRefValue)
    (hdata : chartRefValue.ChartData = some chartData) :
    (loadAndBuild impl appName envOverride envDeploymentConfig s events).path = "" ∧
      (loadAndBuild impl appName envOverride envDeploymentConfig s events).err =
        (impl.chartRefService.ExtractChartIfMissing chartData impl.RefChartDirPath
          chartRefValue.Location s).1.2 ∧
      (loadAndBuild impl appName envOverride envDeploymentConfig s events).events.filter
          ChartEvent.isBuildChart =
        events.filter ChartEvent.isBuildChart := by
  unfold loadAndBuild
  simp only [hstat, href, hdata, if_true]
  repeat' split
  all_goals simp [ChartEvent.isBuildChart, List.filter_cons]

end Chart

/-- C6 fails as stated: with override location "charts/foo/1.0.0" and version "1.0.0",
auto-heal does occur when the deployment config is not a linked release and its own
chart location is "charts/foo/old". -/
theorem BuildChartAndGetPath_autoHeal_despite_override_ok :
    healthyChart.ChartLocation = "charts/foo/1.0.0" ∧ healthyChart.ChartVersion = "1.0.0" ∧
      (BuildChartAndGetPath memImpl "app" ⟨healthyChart⟩ ⟨"charts/foo/old", false⟩
        (chartStoreWith healthyChart "charts/foo" none [])).autoHealRan = true := by
  decide

/-- C7 fails as stated.  With chart-ref location "charts/foo/" and version "1.0.0" a
successful auto-heal stores "charts/foo/1.0.0", not "charts/foo/" followed by "/" and
"1.0.0".  With an empty chart-ref location it stores "1.0.0", not "/1.0.0", and the
consistency check still fails afterwards. -/
theorem autoHeal_location_is_cleaned :
    (autoHealChartLocationInChart memImpl ⟨driftedChart⟩ driftedConfig
        (chartStoreWith driftedChart "charts/foo/" none [])).err = none ∧
      (autoHealChartLocationInChart memImpl ⟨driftedChart⟩ driftedConfig
        (chartStoreWith driftedChart "charts/foo/" none [])).envOverride.Chart.ChartLocation =
        "charts/foo/1.0.0" ∧
      (autoHealChartLocationInChart memImpl ⟨driftedChart⟩ driftedConfig
        (chartStoreWith driftedChart "charts/foo/" none [])).envOverride.Chart.ChartLocation ≠
        "charts/foo/" ++ "/" ++ "1.0.0" ∧
      (autoHealChartLocationInChart memImpl ⟨driftedChart⟩ driftedConfig
        (chartStoreWith driftedChart "" none [])).err = none ∧
      (autoHealChartLocationInChart memImpl ⟨driftedChart⟩ driftedConfig
        (chartStoreWith driftedChart "" none [])).envOverride.Chart.ChartLocation = "1.0.0" ∧
      (autoHealChartLocationInChart memImpl ⟨driftedChart⟩ driftedConfig
        (chartStoreWith driftedChart "" none [])).envOverride.Chart.ChartLocation ≠
        "" ++ "/" ++ "1.0.0" ∧
      chartLocationNeedsHeal
        (autoHealChartLocationInChart memImpl ⟨driftedChart⟩ driftedConfig
          (chartStoreWith driftedChart "" none [])).envOverride
        (autoHealChartLocationInChart memImpl ⟨driftedChart⟩ driftedConfig
          (chartStoreWith driftedChart "" none [])).envDeploymentConfig = true := by
  decide

/-- C7 as amended, on the in-memory store with chart-ref location "charts/foo" (the
ordinary names `charts` and `foo`) and version "1.0.0": the chart row, the override and
the persisted deployment config all get "charts/foo/1.0.0", which is the plain
concatenation, and the consistency check holds afterwards. -/
theorem autoHeal_success_witness :
    (autoHealChartLocationInChart memImpl ⟨driftedChart⟩ driftedConfig
        (chartStoreWith driftedChart "charts/foo" none [])).err = none ∧
      (autoHealChartLocationInChart memImpl ⟨driftedChart⟩ driftedConfig
        (chartStoreWith driftedChart "charts/foo" none [])).store =
        { charts := [healthyChart]
          chartRefs := [(20, { Location := "charts/foo", ChartData := none })]
          savedConfig := some healthyConfig } ∧
      (autoHealChartLocationInChart memImpl ⟨driftedChart⟩ driftedConfig
        (chartStoreWith driftedChart "charts/foo" none
          [])).envDeploymentConfig.GetChartLocation = "charts/foo/1.0.0" ∧
      Join ["charts/foo", "1.0.0"] = "charts/foo" ++ "/" ++ "1.0.0" ∧
      (autoHealChartLocationInChart memImpl ⟨driftedChart⟩ driftedConfig
        (chartStoreWith driftedChart "charts/foo" none [])).envOverride.Chart.ChartLocation =
        "charts/foo" ++ "/" ++ "1.0.0" ∧
      chartLocationNeedsHeal
        (autoHealChartLocationInChart memImpl ⟨driftedChart⟩ driftedConfig
          (chartStoreWith driftedChart "charts/foo" none [])).envOverride
        (autoHealChartLocationInChart memImpl ⟨driftedChart⟩ driftedConfig
          (chartStoreWith driftedChart "charts/foo" none [])).envDeploymentConfig = false :=
  have h := autoHeal_success memImpl ⟨driftedChart⟩ driftedConfig
    (chartStoreWith driftedChart "charts/foo" none [])
    { charts := [healthyChart]
      chartRefs := [(20, { Location := "charts/foo", ChartData := none })] }
    { charts := [healthyChart]
      chartRefs := [(20, { Location := "charts/foo", ChartData := none })]
      savedConfig := some healthyConfig }
    driftedChart { Location := "charts/foo", ChartData := none } (some healthyConfig)
    (by decide) (by decide) (by decide) (by decide)
  have hplain := h.2.2.2.2.2.2.2 ["charts".data, "foo".data] (by decide) (by decide)
    (by decide) (by decide)
  ⟨h.1, h.2.1, h.2.2.2.2.1, h.2.2.2.2.2.1 (by decide) (by decide), hplain.1, hplain.2⟩

/-- C10 fails as stated: when `CreateOrUpdateConfig` fails, the stored chart row and the
in-memory override already carry the new location "charts/foo/1.0.0" instead of the
"charts/foo/old" they had before the call, while no deployment config was persisted. -/
theorem autoHeal_not_transactional :
    (autoHealChartLocationInChart memImpl ⟨driftedChart⟩ driftedConfig
        failingConfigStore).err = some "config update failed" ∧
      (memImpl.chartRepository.FindById 11 failingConfigStore).map Chart.ChartLocation =
        .ok "charts/foo/old" ∧
      (memImpl.chartRepository.FindById 11
        (autoHealChartLocationInChart memImpl ⟨driftedChart⟩ driftedConfig
          failingConfigStore).store).map Chart.ChartLocation = .ok "charts/foo/1.0.0" ∧
      driftedChart.ChartLocation = "charts/foo/old" ∧
      (autoHealChartLocationInChart memImpl ⟨driftedChart⟩ driftedConfig
        failingConfigStore).envOverride.Chart.ChartLocation = "charts/foo/1.0.0" ∧
      (autoHealChartLocationInChart memImpl ⟨driftedChart⟩ driftedConfig
        failingConfigStore).store.savedConfig = none := by
  decide

/-- C10 as amended, on the in-memory store in which persisting the deployment config
fails: the error is returned, the chart row stays updated and nothing is undone. -/
theorem autoHeal_config_failure_witness :
    (autoHealChartLocationInChart memImpl ⟨driftedChart⟩ driftedConfig
        failingConfigStore).err = some "config update failed" ∧
      (autoHealChartLocationInChart memImpl ⟨driftedChart⟩ driftedConfig
        failingConfigStore).store = { failingConfigStore with charts := [healthyChart] } ∧
      (autoHealChartLocationInChart memImpl ⟨driftedChart⟩ driftedConfig
        failingConfigStore).envOverride.Chart.ChartLocation = "charts/foo/1.0.0" ∧
      (autoHealChartLocationInChart memImpl ⟨driftedChart⟩ driftedConfig
        failingConfigStore).envDeploymentConfig = healthyConfig :=
  have h := autoHeal_config_failure memImpl ⟨driftedChart⟩ driftedConfig failingConfigStore
    { failingConfigStore with charts := [healthyChart] }
    { failingConfigStore with charts := [healthyChart] }
    driftedChart { Location := "charts/foo", ChartData := none } none "config update failed"
    (by decide) (by decide) (by decide) (by decide)
  ⟨h.1, h.2.1, h.2.2.2.1, h.2.2.2.2⟩

/-- C8, the code at the failing input: the reference template directory is not on disk,
the chart-ref carries archived chart data and `ExtractChartIfMissing` succeeds, yet
`BuildChartAndGetPath` returns the empty path with a nil error and never calls
`BuildChart`; on the same input with the directory present it returns the directory
`BuildChart` produces. -/
theorem BuildChartAndGetPath_returns_after_extract :
    memImpl.statNotExist (Join [memImpl.RefChartDirPath, healthyChart.ReferenceTemplate])
        archivedChartStore = true ∧
      ChartEvent.ExtractChartIfMissing [31, 139] "scripts/devtron-reference-helm-charts"
          "charts/foo" (some { TemporaryFolder := "/tmp/chart-extract" }) none ∈
        (BuildChartAndGetPath memImpl "app" ⟨healthyChart⟩ healthyConfig
          archivedChartStore).events ∧
      (BuildChartAndGetPath memImpl "app" ⟨healthyChart⟩ healthyConfig
        archivedChartStore).path = "" ∧
      (BuildChartAndGetPath memImpl "app" ⟨healthyChart⟩ healthyConfig
        archivedChartStore).err = none ∧
      (BuildChartAndGetPath memImpl "app" ⟨healthyChart⟩ healthyConfig
        archivedChartStore).events.filter ChartEvent.isBuildChart = [] ∧
      (BuildChartAndGetPath memImpl "app" ⟨healthyChart⟩ healthyConfig
        (BuildChartAndGetPath memImpl "app" ⟨healthyChart⟩ healthyConfig
          archivedChartStore).store).path = "/tmp/app-1.0.0" := by
  decide

end Devtron
